import Mathlib

/-!
Shallow embedding of `src/scripts/estimate_required_images.py` from the
`joehiggi/siads-699` repository, together with theorems checking the
natural-language specification of that script against its code.

Python strings are modelled as `List Char`, Python floats supplied on the
command line or parsed from decimal literals as `ℚ`, and floats produced by
the transcendental library calls (`NormalDist().inv_cdf`, `math.sqrt`) as
`ℝ`.  Python exceptions are modelled by `Except PyErr`.
-/

deriving instance DecidableEq for Except

/-- A Python string: a sequence of characters. -/
abbrev Str := List Char

/-- The two kinds of exceptions `estimate_required_images.py` can raise:
`ValueError` (from the parsing/validation helpers) and `SystemExit`
(raised directly in `main`). -/
inductive PyErr where
  | valueError (msg : Str)
  | systemExit (msg : Str)
deriving DecidableEq, Repr

/-- Whitespace as stripped by Python's `str.strip()` (ASCII part). -/
def pyIsSpace (c : Char) : Bool :=
  c = ' ' || c = '\t' || c = '\n' || c = '\r' || c = '\x0b' || c = '\x0c'

/-- Python `str.strip()`: drop leading and trailing whitespace. -/
def pyStrip (s : Str) : Str :=
  ((s.dropWhile pyIsSpace).reverse.dropWhile pyIsSpace).reverse

/-- Helper for `pySplit`: accumulates the current piece (reversed). -/
def pySplitAux (sep : Char) : Str → Str → List Str
  | [], acc => [acc.reverse]
  | c :: rest, acc =>
      if c = sep then acc.reverse :: pySplitAux sep rest []
      else pySplitAux sep rest (c :: acc)

/-- Python `str.split(sep)` for a one-character separator:
`"".split(",") = [""]`, `"a,".split(",") = ["a", ""]`. -/
def pySplit (sep : Char) (s : Str) : List Str :=
  pySplitAux sep s []

/-- Python `str.split(sep, maxsplit=1)`: split at the first occurrence of
`sep` only; `none` exactly when `sep` does not occur. -/
def splitFirst (sep : Char) : Str → Option (Str × Str)
  | [] => none
  | c :: rest =>
      if c = sep then some ([], rest)
      else (splitFirst sep rest).map (fun p => (c :: p.1, p.2))

/-- The rational value of one decimal digit character. -/
def digitQ : Char → ℚ
  | '1' => 1
  | '2' => 2
  | '3' => 3
  | '4' => 4
  | '5' => 5
  | '6' => 6
  | '7' => 7
  | '8' => 8
  | '9' => 9
  | _ => 0

/-- The rational value of a string of decimal digits (accumulator form). -/
def digitsVal : Str → ℚ → ℚ
  | [], acc => acc
  | c :: rest, acc => digitsVal rest (10 * acc + digitQ c)

/-- `10 ^ n` as a rational, by structural recursion. -/
def tenPow : ℕ → ℚ
  | 0 => 1
  | n + 1 => 10 * tenPow n

/-- A nonempty all-digit string parsed to a rational number. -/
def parseDigits (s : Str) : Option ℚ :=
  if s ≠ [] ∧ s.all Char.isDigit then some (digitsVal s 0) else none

/-- The mantissa of a Python float literal: `d+`, `d+.d*` or `.d+`. -/
def parseMantissa (s : Str) : Option ℚ :=
  match splitFirst '.' s with
  | none => parseDigits s
  | some (a, b) =>
      if a = [] ∧ b = [] then none
      else if ¬ (a.all Char.isDigit ∧ b.all Char.isDigit) then none
      else some (digitsVal a 0 + digitsVal b 0 / tenPow b.length)

/-- An optional leading sign; returns the sign as a rational factor. -/
def parseSign : Str → ℚ × Str
  | '+' :: rest => (1, rest)
  | '-' :: rest => (-1, rest)
  | s => (1, s)

/-- The exponent part after `e`/`E` (optional sign, nonempty digit string),
returned as the scale factor `10 ^ ±e`. -/
def parseExpScale (s : Str) : Option ℚ :=
  match s with
  | '+' :: rest =>
      if rest ≠ [] ∧ rest.all Char.isDigit
      then some (tenPow (rest.foldl (fun a c => 10 * a + (c.toNat - 48)) 0))
      else none
  | '-' :: rest =>
      if rest ≠ [] ∧ rest.all Char.isDigit
      then some (1 / tenPow (rest.foldl (fun a c => 10 * a + (c.toNat - 48)) 0))
      else none
  | rest =>
      if rest ≠ [] ∧ rest.all Char.isDigit
      then some (tenPow (rest.foldl (fun a c => 10 * a + (c.toNat - 48)) 0))
      else none

/-- Split a float literal at the first `e`/`E`, if any. -/
def splitExp (s : Str) : Str × Option Str :=
  match splitFirst 'e' s with
  | some (a, b) => (a, some b)
  | none =>
      match splitFirst 'E' s with
      | some (a, b) => (a, some b)
      | none => (s, none)

/-- CPython's `float(str)` on finite decimal literals: optional surrounding
whitespace, an optional sign, a decimal mantissa and an optional decimal
exponent.  (The `inf`/`nan` spellings and digit-group underscores accepted
by CPython are outside the inputs this script's specification exercises.) -/
def pyFloat (s : Str) : Option ℚ :=
  let t := pyStrip s
  let (sgn, rest) := parseSign t
  let (mant, expPart) := splitExp rest
  match parseMantissa mant with
  | none => none
  | some m =>
      match expPart with
      | none => some (sgn * m)
      | some es =>
          match parseExpScale es with
          | none => none
          | some scale => some (sgn * m * scale)

/-- Insertion into a Python `dict` kept as an association list in insertion
order: an existing key keeps its position and gets the new value, a new key
is appended at the end. -/
def dictInsert (k : Str) (v : ℚ) : List (Str × ℚ) → List (Str × ℚ)
  | [] => [(k, v)]
  | (k', v') :: rest =>
      if k' = k then (k', v) :: rest else (k', v') :: dictInsert k v rest

/-- Python `dict` lookup on the association-list model. -/
def dictFind (k : Str) : List (Str × ℚ) → Option ℚ
  | [] => none
  | (k', v') :: rest => if k' = k then some v' else dictFind k rest

/-- The loop body of `parse_class_boxes`: process each comma chunk in order,
skipping chunks that are empty after stripping, requiring a colon, and
parsing the value with `float`. -/
def parseChunks : List Str → List (Str × ℚ) → Except PyErr (List (Str × ℚ))
  | [], entries => Except.ok entries
  | chunk :: rest, entries =>
      let c := pyStrip chunk
      if c = [] then parseChunks rest entries
      else
        match splitFirst ':' c with
        | none =>
            Except.error (.valueError
              ("Expected name:value pair, got '".toList ++ c ++ ['\'']))
        | some (name, value) =>
            match pyFloat value with
            | none =>
                Except.error (.valueError
                  ("could not convert string to float: '".toList
                    ++ value ++ ['\'']))
            | some v => parseChunks rest (dictInsert (pyStrip name) v entries)

/-- `parse_class_boxes(raw)`: parse `class:boxes_per_image` pairs such as
`header:1,body:1,footer:1`. -/
def parse_class_boxes (raw : Str) : Except PyErr (List (Str × ℚ)) :=
  match parseChunks (pySplit ',' raw) [] with
  | Except.error e => Except.error e
  | Except.ok entries =>
      if entries = [] then
        Except.error (.valueError
          "At least one class:value pair is required.".toList)
      else Except.ok entries

section Arithmetic

open Real

/-- The standard normal cumulative distribution function, written via the
integral of the density from the symmetry point `0`:
`Φ(x) = 1/2 + (∫ t in 0..x, exp (-t²/2)) / √(2π)`. -/
noncomputable def normalCdf (x : ℝ) : ℝ :=
  1 / 2 + (∫ t in (0:ℝ)..x, Real.exp (-(t ^ 2 / 2))) / Real.sqrt (2 * Real.pi)

/-- The inverse cumulative distribution function of the standard normal
distribution, the semantics of the standard library's
`NormalDist().inv_cdf` used by the script (that call is the only part of
the computation living outside the repository). -/
noncomputable def inv_cdf (p : ℝ) : ℝ :=
  sSup {x : ℝ | normalCdf x < p}

open Classical in
/-- `z_score(confidence)`: the z-score for a `(0,1)` confidence level,
`NormalDist().inv_cdf(0.5 + confidence / 2.0)` after the range check. -/
noncomputable def z_score (confidence : ℝ) : Except PyErr ℝ :=
  if ¬ (0 < confidence ∧ confidence < 1) then
    Except.error (.valueError "confidence must be in (0, 1)".toList)
  else Except.ok (inv_cdf (0.5 + confidence / 2))

/-- The value returned by `required_boxes` when its checks pass:
`n = (z^2 * p * (1 - p)) / E^2`. -/
noncomputable def requiredBoxesVal (z margin base_rate : ℝ) : ℝ :=
  z ^ 2 * base_rate * (1 - base_rate) / margin ^ 2

open Classical in
/-- `required_boxes(z, margin, base_rate)` with its two range checks. -/
noncomputable def required_boxes (z margin base_rate : ℝ) : Except PyErr ℝ :=
  if ¬ (0 < margin ∧ margin < 1) then
    Except.error (.valueError "margin must be in (0, 1)".toList)
  else if ¬ (0 < base_rate ∧ base_rate < 1) then
    Except.error (.valueError "base_rate must be in (0, 1)".toList)
  else Except.ok (requiredBoxesVal z margin base_rate)

/-- The value returned by `margin_from_boxes` when its check passes:
`z * math.sqrt(base_rate * (1 - base_rate) / boxes)`. -/
noncomputable def marginFromBoxesVal (z base_rate boxes : ℝ) : ℝ :=
  z * Real.sqrt (base_rate * (1 - base_rate) / boxes)

open Classical in
/-- `margin_from_boxes(z, base_rate, boxes)` with its positivity check. -/
noncomputable def margin_from_boxes (z base_rate boxes : ℝ) : Except PyErr ℝ :=
  if boxes ≤ 0 then
    Except.error (.valueError "boxes must be positive".toList)
  else Except.ok (marginFromBoxesVal z base_rate boxes)

end Arithmetic

section Main

/-- The command-line arguments of the script.  `argparse` parses
`--class-boxes` as a string, `--confidence`, `--margin` and `--base-rate`
as floats (here: the exact rationals the decimal command line denotes) and
`--current-images` as an optional int. -/
structure Args where
  class_boxes : Str
  confidence : ℚ
  margin : ℚ
  base_rate : ℚ
  current_images : Option ℤ
deriving DecidableEq

/-- The defaults declared by `parse_args`. -/
def defaultArgs : Args :=
  ⟨"header:1,body:1,footer:1".toList, 19/20, 1/20, 1/2, none⟩

/-- The quantities `main` computes and reports (the printed values). -/
structure MainOut where
  boxes_needed : ℝ
  per_class : List (Str × ℤ)
  recommended : ℤ
  report : Option (List (Str × ℝ))

/-- The per-class loop of `main`: for each class it checks
`boxes_per_image <= 0` and otherwise records
`math.ceil(boxes_needed / boxes_per_image)`. -/
noncomputable def perClassCounts (boxes_needed : ℝ) :
    List (Str × ℚ) → Except PyErr (List (Str × ℤ))
  | [] => Except.ok []
  | (name, boxes_per_image) :: rest =>
      if boxes_per_image ≤ 0 then
        Except.error (.systemExit
          ("boxes_per_image for ".toList ++ name ++ " must be positive.".toList))
      else
        match perClassCounts boxes_needed rest with
        | Except.error e => Except.error e
        | Except.ok tail =>
            Except.ok ((name, ⌈boxes_needed / (boxes_per_image : ℝ)⌉) :: tail)

/-- The `--current-images` report loop of `main`: for each class,
`boxes = current_images * boxes_per_image` and the worst-case margin is
`margin_from_boxes(z, base_rate, boxes)`. -/
noncomputable def marginReport (z : ℝ) (base_rate : ℚ) (current_images : ℤ) :
    List (Str × ℚ) → Except PyErr (List (Str × ℝ))
  | [] => Except.ok []
  | (name, boxes_per_image) :: rest =>
      match margin_from_boxes z (base_rate : ℝ)
          (((current_images : ℚ) * boxes_per_image : ℚ) : ℝ) with
      | Except.error e => Except.error e
      | Except.ok m =>
          match marginReport z base_rate current_images rest with
          | Except.error e => Except.error e
          | Except.ok tail => Except.ok ((name, m) :: tail)

/-- `max` over the per-class image counts (`max(per_class.values())`;
`main` only reaches it with a nonempty dict, so the `[]` branch is dead
code supplied to make the function total). -/
def maxValues : List ℤ → ℤ
  | [] => 0
  | c :: cs => cs.foldl max c

/-- `main()` of `estimate_required_images.py` on already-parsed arguments:
parse the class spec, normalize a percentage confidence, compute the
z-score and the required boxes, derive per-class image counts and their
maximum, and (only when `current_images` is truthy, i.e. supplied and
nonzero) the worst-case-margin report.  A raised `ValueError` or
`SystemExit` is the `Except.error` case. -/
noncomputable def mainModel (args : Args) : Except PyErr MainOut :=
  match parse_class_boxes args.class_boxes with
  | Except.error e => Except.error e
  | Except.ok classes =>
    match (if args.confidence > 1 then
            (if args.confidence ≥ 100 then
              Except.error (PyErr.systemExit
                "confidence percentage must be less than 100.".toList)
             else Except.ok (args.confidence / 100))
           else Except.ok args.confidence) with
    | Except.error e => Except.error e
    | Except.ok confidence =>
      match z_score (confidence : ℝ) with
      | Except.error e => Except.error e
      | Except.ok z =>
        match required_boxes z (args.margin : ℝ) (args.base_rate : ℝ) with
        | Except.error e => Except.error e
        | Except.ok boxes_needed =>
          match perClassCounts boxes_needed classes with
          | Except.error e => Except.error e
          | Except.ok per_class =>
            let recommended := maxValues (per_class.map Prod.snd)
            match args.current_images with
            | none => Except.ok ⟨boxes_needed, per_class, recommended, none⟩
            | some n =>
              if n = 0 then Except.ok ⟨boxes_needed, per_class, recommended, none⟩
              else
                match marginReport z args.base_rate n classes with
                | Except.error e => Except.error e
                | Except.ok rep =>
                    Except.ok ⟨boxes_needed, per_class, recommended, some rep⟩

end Main

section NormalAnalysis

open Real

/-- Partial sum (first `m` terms) of the Taylor series of `exp (-v)`. -/
noncomputable def expPartial (m : ℕ) (v : ℝ) : ℝ :=
  ∑ n in Finset.range m, (-v) ^ n / n.factorial

theorem expPartial_succ (m : ℕ) (v : ℝ) :
    expPartial (m + 1) v = expPartial m v + (-v) ^ m / m.factorial := by
  simp [expPartial, Finset.sum_range_succ]

theorem expPartial_at_zero (m : ℕ) : expPartial (m + 1) 0 = 1 := by
  induction m with
  | zero => simp [expPartial]
  | succ k ih => rw [expPartial_succ, ih]; simp

/-- The summand-wise derivative of `expPartial (m + 1)`. -/
noncomputable def expPartialD : ℕ → ℝ → ℝ
  | 0, _ => 0
  | n + 1, v => -((-v) ^ n / n.factorial)

theorem hasDerivAt_expPartial (m : ℕ) (v : ℝ) :
    HasDerivAt (fun w => expPartial (m + 1) w) (-expPartial m v) v := by
  have hterm : ∀ n ∈ Finset.range (m + 1),
      HasDerivAt (fun w : ℝ => (-w) ^ n / n.factorial) (expPartialD n v) v := by
    intro n _
    match n with
    | 0 =>
        have hconst : (fun w : ℝ => (-w) ^ 0 / (Nat.factorial 0 : ℝ)) =
            fun _ : ℝ => 1 := by
          funext w; norm_num
        rw [hconst]
        exact hasDerivAt_const v 1
    | n + 1 =>
        have hpow : HasDerivAt (fun w : ℝ => (-w) ^ (n + 1))
            ((n + 1 : ℕ) * (-v) ^ (n + 1 - 1) * (-1)) v :=
          ((hasDerivAt_id v).neg).pow (n + 1)
        have := hpow.div_const ((n + 1).factorial : ℝ)
        convert this using 1
        have hne : ((n.factorial : ℝ)) ≠ 0 := by
          exact_mod_cast (Nat.factorial_pos n).ne'
        rw [expPartialD]
        simp only [Nat.add_sub_cancel, Nat.factorial_succ]
        push_cast
        field_simp
        ring
  have hsum := HasDerivAt.sum hterm
  have hfun : (fun w : ℝ => ∑ n in Finset.range (m + 1), (-w) ^ n / n.factorial)
      = fun w => expPartial (m + 1) w := by
    funext w; rw [expPartial]
  have hder : (∑ n in Finset.range (m + 1), expPartialD n v) = -expPartial m v := by
    rw [Finset.sum_range_succ']
    simp only [expPartialD, expPartial]
    rw [← Finset.sum_neg_distrib]
    simp
  rw [hfun, hder] at hsum
  exact hsum

/-- If `F 0 = 0` and the derivative of `F` is nonnegative on `[0, ∞)`, then
`F` is nonnegative on `[0, ∞)`. -/
theorem nonneg_on_Ici_of_deriv {F F' : ℝ → ℝ} (hF : ∀ w, HasDerivAt F (F' w) w)
    (h0 : F 0 = 0) (hpos : ∀ w, 0 ≤ w → 0 ≤ F' w) :
    ∀ v, 0 ≤ v → 0 ≤ F v := by
  intro v hv
  have hmono : MonotoneOn F (Set.Ici (0:ℝ)) := by
    apply monotoneOn_of_deriv_nonneg (convex_Ici 0)
    · exact fun w _ => (hF w).continuousAt.continuousWithinAt
    · intro w _
      exact (hF w).differentiableAt.differentiableWithinAt
    · intro w hw
      rw [(hF w).deriv]
      rw [interior_Ici] at hw
      exact hpos w (le_of_lt hw)
  have := hmono Set.left_mem_Ici (Set.mem_Ici.2 hv) hv
  rw [h0] at this
  exact this

/-- Alternating bracketing of `exp (-v)` by its Taylor partial sums, valid
for every `v ≥ 0` and every number of terms. -/
theorem expPartial_bracket (m : ℕ) :
    ∀ v : ℝ, 0 ≤ v →
      (Even m → expPartial m v ≤ Real.exp (-v)) ∧
      (Odd m → Real.exp (-v) ≤ expPartial m v) := by
  induction m with
  | zero =>
      intro v _
      refine ⟨fun _ => ?_, fun h => absurd h (by decide)⟩
      simp only [expPartial, Finset.range_zero, Finset.sum_empty]
      exact (Real.exp_pos _).le
  | succ k ih =>
      intro v hv
      constructor
      · intro hEven
        have hkodd : Odd k := Nat.not_even_iff_odd.1 (Nat.even_add_one.1 hEven)
        have hF : ∀ w, HasDerivAt (fun w => Real.exp (-w) - expPartial (k + 1) w)
            (Real.exp (-w) * (-1) - -expPartial k w) w := by
          intro w
          exact (((hasDerivAt_id w).neg).exp).sub (hasDerivAt_expPartial k w)
        have hnn := nonneg_on_Ici_of_deriv hF (by rw [expPartial_at_zero]; simp)
          (fun w hw => by
            have := (ih w hw).2 hkodd
            linarith) v hv
        linarith
      · intro hOdd
        have hkeven : Even k := by
          rcases Nat.even_or_odd k with h | h
          · exact h
          · exact absurd hOdd (Nat.not_odd_iff_even.2 h.add_one)
        have hF : ∀ w, HasDerivAt (fun w => expPartial (k + 1) w - Real.exp (-w))
            (-expPartial k w - Real.exp (-w) * (-1)) w := by
          intro w
          exact (hasDerivAt_expPartial k w).sub (((hasDerivAt_id w).neg).exp)
        have hnn := nonneg_on_Ici_of_deriv hF (by rw [expPartial_at_zero]; simp)
          (fun w hw => by
            have := (ih w hw).1 hkeven
            linarith) v hv
        linarith

end NormalAnalysis

section IntegralBounds

open Real

/-- The integrand of `normalCdf` is continuous. -/
theorem continuous_gauss : Continuous fun t : ℝ => Real.exp (-(t ^ 2 / 2)) :=
  Real.continuous_exp.comp (((continuous_pow 2).div_const 2).neg)

/-- Partial sums of the series of `∫ t in 0..x, exp (-t²/2)`. -/
noncomputable def SmR (m : ℕ) (x : ℝ) : ℝ :=
  ∑ n in Finset.range m,
    (-1) ^ n * x ^ (2 * n + 1) / (n.factorial * 2 ^ n * (2 * n + 1))

theorem continuous_expPartial_sq (m : ℕ) :
    Continuous fun t : ℝ => expPartial m (t ^ 2 / 2) := by
  unfold expPartial
  apply continuous_finset_sum
  intro i _
  apply Continuous.div_const
  exact (((continuous_pow 2).div_const 2).neg).pow i

theorem integral_expPartial_eq (m : ℕ) (x : ℝ) :
    (∫ t in (0:ℝ)..x, expPartial m (t ^ 2 / 2)) = SmR m x := by
  unfold expPartial SmR
  rw [intervalIntegral.integral_finset_sum]
  · apply Finset.sum_congr rfl
    intro n _
    have h1 : (fun t : ℝ => (-(t ^ 2 / 2)) ^ n / (n.factorial : ℝ))
        = fun t : ℝ => ((-1) ^ n / ((n.factorial : ℝ) * 2 ^ n)) * t ^ (2 * n) := by
      funext t
      rw [neg_pow, div_pow, ← pow_mul]
      ring
    rw [h1, intervalIntegral.integral_const_mul, integral_pow,
      zero_pow (by omega : 2 * n + 1 ≠ 0), sub_zero]
    have hn1 : ((n.factorial : ℝ)) ≠ 0 := by
      exact_mod_cast (Nat.factorial_pos n).ne'
    have hn2 : ((2:ℝ)) ^ n ≠ 0 := by positivity
    have hn3 : ((2 * n : ℕ) : ℝ) + 1 ≠ 0 := by positivity
    field_simp
  · intro n _
    apply Continuous.intervalIntegrable
    apply Continuous.div_const
    exact (((continuous_pow 2).div_const 2).neg).pow n

/-- Upper bound on the Gaussian integral from an odd partial sum. -/
theorem gauss_integral_le (m : ℕ) (hm : Odd m) (x : ℝ) (hx : 0 ≤ x) :
    (∫ t in (0:ℝ)..x, Real.exp (-(t ^ 2 / 2))) ≤ SmR m x := by
  rw [← integral_expPartial_eq]
  apply intervalIntegral.integral_mono_on hx
    (continuous_gauss.intervalIntegrable 0 x)
    ((continuous_expPartial_sq m).intervalIntegrable 0 x)
  intro t _
  exact (expPartial_bracket m (t ^ 2 / 2) (by positivity)).2 hm

/-- Lower bound on the Gaussian integral from an even partial sum. -/
theorem le_gauss_integral (m : ℕ) (hm : Even m) (x : ℝ) (hx : 0 ≤ x) :
    SmR m x ≤ ∫ t in (0:ℝ)..x, Real.exp (-(t ^ 2 / 2)) := by
  rw [← integral_expPartial_eq]
  apply intervalIntegral.integral_mono_on hx
    ((continuous_expPartial_sq m).intervalIntegrable 0 x)
    (continuous_gauss.intervalIntegrable 0 x)
  intro t _
  exact (expPartial_bracket m (t ^ 2 / 2) (by positivity)).1 hm

/-- `normalCdf` is monotone. -/
theorem normalCdf_mono : Monotone normalCdf := by
  intro x y hxy
  unfold normalCdf
  have hsqrt : (0:ℝ) < Real.sqrt (2 * Real.pi) :=
    Real.sqrt_pos.2 (by positivity)
  apply add_le_add_left
  apply (div_le_div_iff_of_pos_right hsqrt).2
  rw [← intervalIntegral.integral_add_adjacent_intervals
    (continuous_gauss.intervalIntegrable 0 x)
    (continuous_gauss.intervalIntegrable x y)]
  exact le_add_of_nonneg_right
    (intervalIntegral.integral_nonneg hxy (fun u _ => (Real.exp_pos _).le))

end IntegralBounds

section NumericBounds

open Real

/-- Rational-valued partial sums matching `SmR`. -/
def qS (m : ℕ) (x : ℚ) : ℚ :=
  ∑ n in Finset.range m,
    (-1) ^ n * x ^ (2 * n + 1) / (n.factorial * 2 ^ n * (2 * n + 1))

theorem qS_cast (m : ℕ) (x : ℚ) : ((qS m x : ℚ) : ℝ) = SmR m (x : ℝ) := by
  unfold qS SmR
  push_cast
  norm_num

theorem lt_c_mul_sqrt_two_pi {q c : ℚ} (hc : 0 < c)
    (h : q ^ 2 ≤ c ^ 2 * 2 * (3141592 / 1000000)) :
    (q : ℝ) < (c : ℝ) * Real.sqrt (2 * Real.pi) := by
  have hr : (q:ℝ) ^ 2 ≤ (c:ℝ) ^ 2 * 2 * (3141592 / 1000000 : ℝ) := by
    have hcast := (Rat.cast_le (K := ℝ)).2 h
    push_cast at hcast
    linarith
  have hpi : (3.141592 : ℝ) < Real.pi := Real.pi_gt_d6
  have hcr : (0:ℝ) < (c:ℝ) := by exact_mod_cast hc
  have h1 : (q:ℝ) ^ 2 < ((c:ℝ) * Real.sqrt (2 * Real.pi)) ^ 2 := by
    rw [mul_pow, Real.sq_sqrt (by positivity : (0:ℝ) ≤ 2 * Real.pi)]
    nlinarith [mul_lt_mul_of_pos_left hpi (pow_pos hcr 2)]
  exact lt_of_pow_lt_pow_left₀ 2 (by positivity) h1

theorem c_mul_sqrt_two_pi_le {q c : ℚ} (hc : 0 ≤ c) (hq : 0 ≤ q)
    (h : c ^ 2 * 2 * (3141593 / 1000000) ≤ q ^ 2) :
    (c : ℝ) * Real.sqrt (2 * Real.pi) ≤ (q : ℝ) := by
  have hr : (c:ℝ) ^ 2 * 2 * (3141593 / 1000000 : ℝ) ≤ (q:ℝ) ^ 2 := by
    have hcast := (Rat.cast_le (K := ℝ)).2 h
    push_cast at hcast
    linarith
  have hpi : Real.pi < 3.141593 := Real.pi_lt_d6
  have hcr : (0:ℝ) ≤ (c:ℝ) := by exact_mod_cast hc
  have hqr : (0:ℝ) ≤ (q:ℝ) := by exact_mod_cast hq
  have h1 : ((c:ℝ) * Real.sqrt (2 * Real.pi)) ^ 2 ≤ (q:ℝ) ^ 2 := by
    rw [mul_pow, Real.sq_sqrt (by positivity : (0:ℝ) ≤ 2 * Real.pi)]
    nlinarith [mul_le_mul_of_nonneg_left hpi.le (sq_nonneg ((c:ℝ)))]
  exact le_of_pow_le_pow_left₀ two_ne_zero hqr h1

set_option maxRecDepth 8000 in
theorem qA_sq : (qS 19 (4899/2500 : ℚ)) ^ 2 ≤ (19/40 : ℚ) ^ 2 * 2 * (3141592/1000000) := by
  norm_num [qS, Finset.sum_range_succ, Nat.factorial]

set_option maxRecDepth 8000 in
theorem qB_sq : (19/40 : ℚ) ^ 2 * 2 * (3141593/1000000) ≤ (qS 20 (4901/2500 : ℚ)) ^ 2 := by
  norm_num [qS, Finset.sum_range_succ, Nat.factorial]

set_option maxRecDepth 8000 in
theorem qB_nonneg : (0:ℚ) ≤ qS 20 (4901/2500 : ℚ) := by
  norm_num [qS, Finset.sum_range_succ, Nat.factorial]

set_option maxRecDepth 8000 in
theorem qC_sq : (qS 19 (103/40 : ℚ)) ^ 2 ≤ (99/200 : ℚ) ^ 2 * 2 * (3141592/1000000) := by
  norm_num [qS, Finset.sum_range_succ, Nat.factorial]

set_option maxRecDepth 8000 in
theorem qD_sq : (99/200 : ℚ) ^ 2 * 2 * (3141593/1000000) ≤ (qS 20 (25767/10000 : ℚ)) ^ 2 := by
  norm_num [qS, Finset.sum_range_succ, Nat.factorial]

set_option maxRecDepth 8000 in
theorem qD_nonneg : (0:ℚ) ≤ qS 20 (25767/10000 : ℚ) := by
  norm_num [qS, Finset.sum_range_succ, Nat.factorial]

theorem sqrt_two_pi_pos : (0:ℝ) < Real.sqrt (2 * Real.pi) :=
  Real.sqrt_pos.2 (by positivity)

/-- `Φ(1.9596) < 0.975`. -/
theorem normalCdf_19596_lt : normalCdf ((4899:ℝ)/2500) < 39/40 := by
  have hI : (∫ t in (0:ℝ)..((4899:ℝ)/2500), Real.exp (-(t ^ 2 / 2)))
      ≤ ((qS 19 (4899/2500 : ℚ) : ℚ) : ℝ) := by
    rw [qS_cast]
    push_cast
    exact gauss_integral_le 19 ⟨9, by norm_num⟩ _ (by norm_num)
  have h2 : ((qS 19 (4899/2500 : ℚ) : ℚ) : ℝ)
      < ((19/40 : ℚ) : ℝ) * Real.sqrt (2 * Real.pi) :=
    lt_c_mul_sqrt_two_pi (by norm_num) qA_sq
  rw [show (((19/40 : ℚ)) : ℝ) = 19/40 by norm_num] at h2
  have h3 : (∫ t in (0:ℝ)..((4899:ℝ)/2500), Real.exp (-(t ^ 2 / 2)))
      / Real.sqrt (2 * Real.pi) < 19/40 :=
    (div_lt_iff₀ sqrt_two_pi_pos).2 (lt_of_le_of_lt hI h2)
  unfold normalCdf
  linarith

/-- `0.975 ≤ Φ(1.9604)`. -/
theorem le_normalCdf_19604 : (39:ℝ)/40 ≤ normalCdf ((4901:ℝ)/2500) := by
  have hI : ((qS 20 (4901/2500 : ℚ) : ℚ) : ℝ)
      ≤ ∫ t in (0:ℝ)..((4901:ℝ)/2500), Real.exp (-(t ^ 2 / 2)) := by
    rw [qS_cast]
    push_cast
    exact le_gauss_integral 20 ⟨10, by norm_num⟩ _ (by norm_num)
  have h2 : ((19/40 : ℚ) : ℝ) * Real.sqrt (2 * Real.pi)
      ≤ ((qS 20 (4901/2500 : ℚ) : ℚ) : ℝ) :=
    c_mul_sqrt_two_pi_le (by norm_num) qB_nonneg qB_sq
  rw [show (((19/40 : ℚ)) : ℝ) = 19/40 by norm_num] at h2
  have h3 : (19:ℝ)/40 ≤ (∫ t in (0:ℝ)..((4901:ℝ)/2500), Real.exp (-(t ^ 2 / 2)))
      / Real.sqrt (2 * Real.pi) :=
    (le_div_iff₀ sqrt_two_pi_pos).2 (h2.trans hI)
  unfold normalCdf
  linarith

/-- `Φ(2.575) < 0.995`. -/
theorem normalCdf_2575_lt : normalCdf ((103:ℝ)/40) < 199/200 := by
  have hI : (∫ t in (0:ℝ)..((103:ℝ)/40), Real.exp (-(t ^ 2 / 2)))
      ≤ ((qS 19 (103/40 : ℚ) : ℚ) : ℝ) := by
    rw [qS_cast]
    push_cast
    exact gauss_integral_le 19 ⟨9, by norm_num⟩ _ (by norm_num)
  have h2 : ((qS 19 (103/40 : ℚ) : ℚ) : ℝ)
      < ((99/200 : ℚ) : ℝ) * Real.sqrt (2 * Real.pi) :=
    lt_c_mul_sqrt_two_pi (by norm_num) qC_sq
  rw [show (((99/200 : ℚ)) : ℝ) = 99/200 by norm_num] at h2
  have h3 : (∫ t in (0:ℝ)..((103:ℝ)/40), Real.exp (-(t ^ 2 / 2)))
      / Real.sqrt (2 * Real.pi) < 99/200 :=
    (div_lt_iff₀ sqrt_two_pi_pos).2 (lt_of_le_of_lt hI h2)
  unfold normalCdf
  linarith

/-- `0.995 ≤ Φ(2.5767)`. -/
theorem le_normalCdf_25767 : (199:ℝ)/200 ≤ normalCdf ((25767:ℝ)/10000) := by
  have hI : ((qS 20 (25767/10000 : ℚ) : ℚ) : ℝ)
      ≤ ∫ t in (0:ℝ)..((25767:ℝ)/10000), Real.exp (-(t ^ 2 / 2)) := by
    rw [qS_cast]
    push_cast
    exact le_gauss_integral 20 ⟨10, by norm_num⟩ _ (by norm_num)
  have h2 : ((99/200 : ℚ) : ℝ) * Real.sqrt (2 * Real.pi)
      ≤ ((qS 20 (25767/10000 : ℚ) : ℚ) : ℝ) :=
    c_mul_sqrt_two_pi_le (by norm_num) qD_nonneg qD_sq
  rw [show (((99/200 : ℚ)) : ℝ) = 99/200 by norm_num] at h2
  have h3 : (99:ℝ)/200 ≤ (∫ t in (0:ℝ)..((25767:ℝ)/10000), Real.exp (-(t ^ 2 / 2)))
      / Real.sqrt (2 * Real.pi) :=
    (le_div_iff₀ sqrt_two_pi_pos).2 (h2.trans hI)
  unfold normalCdf
  linarith

/-- Bounds on `inv_cdf p` from bounds on `normalCdf`. -/
theorem inv_cdf_between {p a b : ℝ} (ha : normalCdf a < p) (hb : p ≤ normalCdf b) :
    a ≤ inv_cdf p ∧ inv_cdf p ≤ b := by
  have hub : ∀ y ∈ {x : ℝ | normalCdf x < p}, y ≤ b := by
    intro y hy
    by_contra hyb
    push_neg at hyb
    exact absurd hy (not_lt.2 (hb.trans (normalCdf_mono hyb.le)))
  exact ⟨le_csSup ⟨b, hub⟩ ha, csSup_le ⟨a, ha⟩ hub⟩

/-- `inv_cdf(0.975) ∈ [1.9596, 1.9604]`. -/
theorem inv_cdf_975_bounds :
    (4899:ℝ)/2500 ≤ inv_cdf (39/40) ∧ inv_cdf (39/40) ≤ (4901:ℝ)/2500 :=
  inv_cdf_between normalCdf_19596_lt le_normalCdf_19604

/-- `inv_cdf(0.995) ∈ [2.575, 2.5767]`. -/
theorem inv_cdf_995_bounds :
    (103:ℝ)/40 ≤ inv_cdf (199/200) ∧ inv_cdf (199/200) ≤ (25767:ℝ)/10000 :=
  inv_cdf_between normalCdf_2575_lt le_normalCdf_25767

end NumericBounds

section ClaimsArithmetic

/-- C1: for every `z`, every margin `E` strictly in `(0,1)` and every
`base_rate` `p` strictly in `(0,1)`, `required_boxes(z, E, p)` returns
exactly `(z² × p × (1−p)) / E²`, and it raises a validation error exactly
when `E` or `p` falls outside the open interval `(0,1)`. -/
theorem C1_required_boxes_formula_and_errors (z E p : ℝ) :
    (0 < E → E < 1 → 0 < p → p < 1 →
      required_boxes z E p = Except.ok (z ^ 2 * p * (1 - p) / E ^ 2)) ∧
    ((∃ e, required_boxes z E p = Except.error e) ↔
      ¬ (0 < E ∧ E < 1) ∨ ¬ (0 < p ∧ p < 1)) := by
  unfold required_boxes requiredBoxesVal
  constructor
  · intro h1 h2 h3 h4
    rw [if_neg (not_not_intro ⟨h1, h2⟩), if_neg (not_not_intro ⟨h3, h4⟩)]
  · constructor
    · rintro ⟨e, he⟩
      by_contra hcon
      rw [not_or, not_not, not_not] at hcon
      rw [if_neg (not_not_intro hcon.1), if_neg (not_not_intro hcon.2)] at he
      exact Except.noConfusion he
    · intro h
      by_cases hE : ¬ (0 < E ∧ E < 1)
      · exact ⟨_, by rw [if_pos hE]⟩
      · rcases h with h | h
        · exact absurd h hE
        · exact ⟨_, by rw [if_neg hE, if_pos h]⟩

theorem C1_witness :
    required_boxes 1 (1/2) (1/2) =
      Except.ok ((1:ℝ) ^ 2 * (1/2) * (1 - 1/2) / (1/2) ^ 2) :=
  (C1_required_boxes_formula_and_errors 1 (1/2) (1/2)).1
    (by norm_num) (by norm_num) (by norm_num) (by norm_num)

theorem required_boxes_ok_ranges {z E p n : ℝ}
    (h : required_boxes z E p = Except.ok n) :
    (0 < E ∧ E < 1) ∧ (0 < p ∧ p < 1) ∧ n = requiredBoxesVal z E p := by
  unfold required_boxes at h
  by_cases hE : ¬ (0 < E ∧ E < 1)
  · rw [if_pos hE] at h; exact Except.noConfusion h
  · rw [if_neg hE] at h
    by_cases hp : ¬ (0 < p ∧ p < 1)
    · rw [if_pos hp] at h; exact Except.noConfusion h
    · rw [if_neg hp] at h
      rw [not_not] at hE hp
      exact ⟨hE, hp, (Except.ok.inj h).symm⟩

theorem margin_from_boxes_ok {z p b m : ℝ}
    (h : margin_from_boxes z p b = Except.ok m) :
    0 < b ∧ m = marginFromBoxesVal z p b := by
  unfold margin_from_boxes at h
  by_cases hb : b ≤ 0
  · rw [if_pos hb] at h; exact Except.noConfusion h
  · rw [if_neg hb] at h
    exact ⟨lt_of_not_le hb, (Except.ok.inj h).symm⟩

/-- C7: for every `z > 0`, every `base_rate` strictly in `(0,1)` and every
margin strictly in `(0,1)`, applying `margin_from_boxes` with the same `z`
and `base_rate` to the (unrounded) value returned by `required_boxes`
recovers the original margin. -/
theorem C7_round_trip (z E p n m : ℝ) (hz : 0 < z)
    (hE1 : 0 < E) (hE2 : E < 1) (hp1 : 0 < p) (hp2 : p < 1)
    (hn : required_boxes z E p = Except.ok n)
    (hm : margin_from_boxes z p n = Except.ok m) : m = E := by
  obtain ⟨-, -, hnval⟩ := required_boxes_ok_ranges hn
  obtain ⟨-, hmval⟩ := margin_from_boxes_ok hm
  subst hnval
  rw [hmval, marginFromBoxesVal, requiredBoxesVal]
  have h1p : 0 < 1 - p := by linarith
  have harg : p * (1 - p) / (z ^ 2 * p * (1 - p) / E ^ 2) = (E / z) ^ 2 := by
    field_simp
    ring
  rw [harg, Real.sqrt_sq (by positivity)]
  field_simp

theorem C7_witness : (1/2 : ℝ) = 1/2 := by
  have hn : required_boxes 2 (1/2) (1/2) = Except.ok 4 := by
    unfold required_boxes requiredBoxesVal
    rw [if_neg (by norm_num), if_neg (by norm_num)]
    norm_num
  have hm : margin_from_boxes 2 (1/2) 4 = Except.ok (1/2) := by
    unfold margin_from_boxes marginFromBoxesVal
    rw [if_neg (by norm_num)]
    rw [show (1/2 : ℝ) * (1 - 1/2) / 4 = (1/4) ^ 2 by norm_num,
      Real.sqrt_sq (by norm_num)]
    norm_num
  exact C7_round_trip 2 (1/2) (1/2) 4 (1/2) (by norm_num) (by norm_num)
    (by norm_num) (by norm_num) (by norm_num) hn hm

/-- C8 counterexample: with `z = 0` — allowed by the claim, which
quantifies over every fixed `z` — both functions are constant, so neither
is strictly decreasing: `required_boxes` returns `0` at margins `1/4` and
`1/2`, and `margin_from_boxes` returns `0` at box counts `1` and `2`. -/
theorem C8_counterexample :
    required_boxes 0 (1/4) (1/2) = Except.ok 0 ∧
    required_boxes 0 (1/2) (1/2) = Except.ok 0 ∧
    margin_from_boxes 0 (1/2) 1 = Except.ok 0 ∧
    margin_from_boxes 0 (1/2) 2 = Except.ok 0 := by
  unfold required_boxes requiredBoxesVal margin_from_boxes marginFromBoxesVal
  refine ⟨?_, ?_, ?_, ?_⟩
  · rw [if_neg (by norm_num), if_neg (by norm_num)]; norm_num
  · rw [if_neg (by norm_num), if_neg (by norm_num)]; norm_num
  · rw [if_neg (by norm_num)]; norm_num
  · rw [if_neg (by norm_num)]; norm_num

/-- C8 (amended): for fixed `z ≠ 0` and `base_rate` strictly in `(0,1)`,
`required_boxes` is strictly decreasing in the margin on `(0,1)`; for fixed
`z > 0` and `base_rate` strictly in `(0,1)`, `margin_from_boxes` is
strictly decreasing in the box count over positive box counts. -/
theorem C8_strictly_decreasing :
    (∀ z p E₁ E₂ n₁ n₂ : ℝ, z ≠ 0 → 0 < p → p < 1 → E₁ < E₂ →
      required_boxes z E₁ p = Except.ok n₁ →
      required_boxes z E₂ p = Except.ok n₂ → n₂ < n₁) ∧
    (∀ z p b₁ b₂ m₁ m₂ : ℝ, 0 < z → 0 < p → p < 1 → b₁ < b₂ →
      margin_from_boxes z p b₁ = Except.ok m₁ →
      margin_from_boxes z p b₂ = Except.ok m₂ → m₂ < m₁) := by
  constructor
  · intro z p E₁ E₂ n₁ n₂ hz hp1 hp2 hE hok₁ hok₂
    obtain ⟨⟨hE₁0, _⟩, -, hn₁⟩ := required_boxes_ok_ranges hok₁
    obtain ⟨⟨hE₂0, _⟩, -, hn₂⟩ := required_boxes_ok_ranges hok₂
    subst hn₁
    subst hn₂
    unfold requiredBoxesVal
    have hK : 0 < z ^ 2 * p * (1 - p) := by
      have := pow_pos (abs_pos.2 hz) 2
      have hz2 : 0 < z ^ 2 := by positivity
      have h1p : 0 < 1 - p := by linarith
      positivity
    apply div_lt_div_of_pos_left hK (by positivity)
    exact pow_lt_pow_left₀ hE hE₁0.le two_ne_zero
  · intro z p b₁ b₂ m₁ m₂ hz hp1 hp2 hb hok₁ hok₂
    obtain ⟨hb₁, hm₁⟩ := margin_from_boxes_ok hok₁
    obtain ⟨hb₂, hm₂⟩ := margin_from_boxes_ok hok₂
    subst hm₁
    subst hm₂
    unfold marginFromBoxesVal
    have h1p : 0 < 1 - p := by linarith
    apply mul_lt_mul_of_pos_left ?_ hz
    apply Real.sqrt_lt_sqrt (by positivity)
    apply div_lt_div_of_pos_left (by positivity) hb₁ hb

theorem C8_witness : ((1:ℝ) < 4) ∧ ((1/4 : ℝ) < 1/2) := by
  constructor
  · apply C8_strictly_decreasing.1 1 (1/2) (1/4) (1/2) 4 1 (by norm_num)
      (by norm_num) (by norm_num) (by norm_num)
    · unfold required_boxes requiredBoxesVal
      rw [if_neg (by norm_num), if_neg (by norm_num)]
      norm_num
    · unfold required_boxes requiredBoxesVal
      rw [if_neg (by norm_num), if_neg (by norm_num)]
      norm_num
  · apply C8_strictly_decreasing.2 1 (1/2) 1 4 (1/2) (1/4) (by norm_num)
      (by norm_num) (by norm_num) (by norm_num)
    · unfold margin_from_boxes marginFromBoxesVal
      rw [if_neg (by norm_num)]
      rw [show (1/2 : ℝ) * (1 - 1/2) / 1 = (1/2) ^ 2 by norm_num,
        Real.sqrt_sq (by norm_num)]
      norm_num
    · unfold margin_from_boxes marginFromBoxesVal
      rw [if_neg (by norm_num)]
      rw [show (1/2 : ℝ) * (1 - 1/2) / 4 = (1/4) ^ 2 by norm_num,
        Real.sqrt_sq (by norm_num)]
      norm_num

end ClaimsArithmetic

section ClaimsParsing

theorem dictFind_insert_same (k : Str) (v : ℚ) (entries : List (Str × ℚ)) :
    dictFind k (dictInsert k v entries) = some v := by
  induction entries with
  | nil => simp [dictInsert, dictFind]
  | cons p rest ih =>
      by_cases h : p.1 = k
      · simp [dictInsert, dictFind, h]
      · simp [dictInsert, dictFind, h, ih]

theorem dictFind_insert_other (k k' : Str) (v : ℚ) (entries : List (Str × ℚ))
    (hkk : k' ≠ k) :
    dictFind k' (dictInsert k v entries) = dictFind k' entries := by
  have hk : k ≠ k' := Ne.symm hkk
  induction entries with
  | nil => simp [dictInsert, dictFind, hk]
  | cons p rest ih =>
      by_cases h : p.1 = k
      · simp [dictInsert, dictFind, h, hk]
      · simp [dictInsert, dictFind, h, ih]

/-- C9: parsing maps each class name to its parsed numeric value with
last-write-wins semantics for duplicated names and no duplicate-key error:
`"header:1,body:1.5"` parses to `{header: 1.0, body: 1.5}`,
`"header:1,header:2"` parses to `{header: 2.0}`, and on the dict model the
inserted value is found under its key while other keys are untouched. -/
theorem C9_last_write_wins :
    parse_class_boxes "header:1,body:1.5".toList =
      Except.ok [("header".toList, 1), ("body".toList, 3/2)] ∧
    parse_class_boxes "header:1,header:2".toList =
      Except.ok [("header".toList, 2)] ∧
    (∀ (k : Str) (v : ℚ) (entries : List (Str × ℚ)),
      dictFind k (dictInsert k v entries) = some v) ∧
    (∀ (k k' : Str) (v : ℚ) (entries : List (Str × ℚ)), k' ≠ k →
      dictFind k' (dictInsert k v entries) = dictFind k' entries) := by
  refine ⟨?_, ?_, dictFind_insert_same, dictFind_insert_other⟩
  · simp [parse_class_boxes, parseChunks, pySplit, pySplitAux, pyStrip, pyIsSpace,
      splitFirst, pyFloat, parseSign, splitExp, parseMantissa, parseDigits,
      digitsVal, digitQ, tenPow, dictInsert, String.toList]
    norm_num
  · simp [parse_class_boxes, parseChunks, pySplit, pySplitAux, pyStrip, pyIsSpace,
      splitFirst, pyFloat, parseSign, splitExp, parseMantissa, parseDigits,
      digitsVal, digitQ, tenPow, dictInsert, String.toList]

theorem C9_witness :
    dictFind "body".toList (dictInsert "header".toList 1 []) =
      dictFind "body".toList [] :=
  C9_last_write_wins.2.2.2 "header".toList "body".toList 1 [] (by decide)

end ClaimsParsing

section ClaimsParseErrors

/-- The conditions under which the loop body of `parse_class_boxes` raises
for a given comma chunk: the chunk is nonempty after stripping and either
has no colon or its value part does not parse as a float. -/
def chunkBad (c : Str) : Prop :=
  pyStrip c ≠ [] ∧
    (splitFirst ':' (pyStrip c) = none ∨
     ∃ nv, splitFirst ':' (pyStrip c) = some nv ∧ pyFloat nv.2 = none)

theorem parseChunks_error_iff (chunks : List Str) :
    ∀ acc, (∃ e, parseChunks chunks acc = Except.error e) ↔
      ∃ c ∈ chunks, chunkBad c := by
  induction chunks with
  | nil => intro acc; simp [parseChunks]
  | cons ch rest ih =>
      intro acc
      by_cases hempty : pyStrip ch = []
      · have hstep : parseChunks (ch :: rest) acc = parseChunks rest acc := by
          simp [parseChunks, hempty]
        rw [hstep, ih]
        constructor
        · rintro ⟨c, hc, hbad⟩
          exact ⟨c, List.mem_cons_of_mem _ hc, hbad⟩
        · rintro ⟨c, hc, hbad⟩
          rcases List.mem_cons.1 hc with rfl | hc
          · exact absurd hempty hbad.1
          · exact ⟨c, hc, hbad⟩
      · cases hsf : splitFirst ':' (pyStrip ch) with
        | none =>
            apply iff_of_true
            · refine ⟨PyErr.valueError
                ("Expected name:value pair, got '".toList ++ pyStrip ch ++ ['\'']), ?_⟩
              simp [parseChunks, hempty, hsf]
            · exact ⟨ch, List.mem_cons_self _ _, hempty, Or.inl hsf⟩
        | some nv =>
            obtain ⟨name, value⟩ := nv
            cases hpf : pyFloat value with
            | none =>
                apply iff_of_true
                · refine ⟨PyErr.valueError
                    ("could not convert string to float: '".toList ++ value ++ ['\'']), ?_⟩
                  simp [parseChunks, hempty, hsf, hpf]
                · exact ⟨ch, List.mem_cons_self _ _, hempty,
                    Or.inr ⟨(name, value), hsf, hpf⟩⟩
            | some v =>
                have hstep : parseChunks (ch :: rest) acc =
                    parseChunks rest (dictInsert (pyStrip name) v acc) := by
                  simp [parseChunks, hempty, hsf, hpf]
                rw [hstep, ih]
                constructor
                · rintro ⟨c, hc, hbad⟩
                  exact ⟨c, List.mem_cons_of_mem _ hc, hbad⟩
                · rintro ⟨c, hc, hbad⟩
                  rcases List.mem_cons.1 hc with rfl | hc
                  · rcases hbad.2 with h | ⟨nv', hsf', hpf'⟩
                    · rw [hsf] at h; exact Option.noConfusion h
                    · rw [hsf] at hsf'
                      obtain rfl : nv' = (name, value) := (Option.some.inj hsf').symm
                      rw [hpf] at hpf'
                      exact Option.noConfusion hpf'
                  · exact ⟨c, hc, hbad⟩

theorem dictInsert_ne_nil (k : Str) (v : ℚ) (l : List (Str × ℚ)) :
    dictInsert k v l ≠ [] := by
  cases l with
  | nil => simp [dictInsert]
  | cons p rest =>
      by_cases h : p.1 = k <;> simp [dictInsert, h]

theorem parseChunks_ok_nil_iff (chunks : List Str) :
    ∀ acc res, parseChunks chunks acc = Except.ok res →
      (res = [] ↔ (acc = [] ∧ ∀ c ∈ chunks, pyStrip c = [])) := by
  induction chunks with
  | nil =>
      intro acc res h
      simp only [parseChunks, Except.ok.injEq] at h
      subst h
      simp
  | cons ch rest ih =>
      intro acc res h
      by_cases hempty : pyStrip ch = []
      · rw [show parseChunks (ch :: rest) acc = parseChunks rest acc from by
          simp [parseChunks, hempty]] at h
        rw [ih acc res h]
        simp [hempty]
      · cases hsf : splitFirst ':' (pyStrip ch) with
        | none => simp [parseChunks, hempty, hsf] at h
        | some nv =>
            obtain ⟨name, value⟩ := nv
            cases hpf : pyFloat value with
            | none => simp [parseChunks, hempty, hsf, hpf] at h
            | some v =>
                rw [show parseChunks (ch :: rest) acc =
                    parseChunks rest (dictInsert (pyStrip name) v acc) from by
                  simp [parseChunks, hempty, hsf, hpf]] at h
                rw [ih _ res h]
                simp [dictInsert_ne_nil, hempty]

/-- C4 counterexample: the input `":1"` — a chunk whose name is empty
after trimming — is accepted, not rejected: it parses to the single pair
`("", 1.0)`.  `parse_class_boxes` never checks the name for emptiness. -/
theorem C4_counterexample :
    parse_class_boxes ":1".toList = Except.ok [([], 1)] := by
  simp [parse_class_boxes, parseChunks, pySplit, pySplitAux, pyStrip, pyIsSpace,
    splitFirst, pyFloat, parseSign, splitExp, parseMantissa, parseDigits,
    digitsVal, digitQ, tenPow, dictInsert, String.toList]

/-- C4 (amended): parsing fails with a parsing error exactly when some
chunk that is nonempty after stripping lacks a colon or has a value that
does not parse as a number, or when every chunk is empty after stripping
(so the final set of pairs is empty).  An empty name before the colon is
accepted, not rejected. -/
theorem C4_parse_error_iff (raw : Str) :
    (∃ e, parse_class_boxes raw = Except.error e) ↔
      (∃ c ∈ pySplit ',' raw, chunkBad c) ∨
      (∀ c ∈ pySplit ',' raw, pyStrip c = []) := by
  cases hpc : parseChunks (pySplit ',' raw) [] with
  | error e =>
      have heval : parse_class_boxes raw = Except.error e := by
        simp [parse_class_boxes, hpc]
      have h1 : ∃ e', parseChunks (pySplit ',' raw) [] = Except.error e' := ⟨e, hpc⟩
      rw [parseChunks_error_iff] at h1
      exact iff_of_true ⟨e, heval⟩ (Or.inl h1)
  | ok entries =>
      by_cases hnil : entries = []
      · subst hnil
        have heval : parse_class_boxes raw = Except.error
            (.valueError "At least one class:value pair is required.".toList) := by
          simp [parse_class_boxes, hpc]
        refine iff_of_true ⟨_, heval⟩ (Or.inr ?_)
        exact ((parseChunks_ok_nil_iff _ _ _ hpc).1 rfl).2
      · have heval : parse_class_boxes raw = Except.ok entries := by
          simp [parse_class_boxes, hpc, hnil]
        apply iff_of_false
        · rintro ⟨e, he⟩
          rw [heval] at he
          exact Except.noConfusion he
        · rintro (hbad | hall)
          · obtain ⟨e, he⟩ := (parseChunks_error_iff _ _).2 hbad
            rw [hpc] at he
            exact Except.noConfusion he
          · exact hnil ((parseChunks_ok_nil_iff _ _ _ hpc).2 ⟨rfl, hall⟩)

theorem C4_witness : ∃ e, parse_class_boxes "bad".toList = Except.error e :=
  (C4_parse_error_iff "bad".toList).2
    (Or.inl ⟨"bad".toList, by simp [pySplit, pySplitAux, String.toList],
      by simp [chunkBad, pyStrip, pyIsSpace, splitFirst, String.toList]⟩)

end ClaimsParseErrors

section MainInversion

theorem parseChunks_error_shape (chunks : List Str) :
    ∀ acc e, parseChunks chunks acc = Except.error e → ∃ m, e = PyErr.valueError m := by
  induction chunks with
  | nil => intro acc e h; simp [parseChunks] at h
  | cons ch rest ih =>
      intro acc e h
      by_cases hempty : pyStrip ch = []
      · rw [show parseChunks (ch :: rest) acc = parseChunks rest acc from by
          simp [parseChunks, hempty]] at h
        exact ih acc e h
      · cases hsf : splitFirst ':' (pyStrip ch) with
        | none =>
            simp [parseChunks, hempty, hsf] at h
            exact ⟨_, h.symm⟩
        | some nv =>
            obtain ⟨name, value⟩ := nv
            cases hpf : pyFloat value with
            | none =>
                simp [parseChunks, hempty, hsf, hpf] at h
                exact ⟨_, h.symm⟩
            | some v =>
                rw [show parseChunks (ch :: rest) acc =
                    parseChunks rest (dictInsert (pyStrip name) v acc) from by
                  simp [parseChunks, hempty, hsf, hpf]] at h
                exact ih _ e h

theorem parse_class_boxes_error_shape {raw : Str} {e : PyErr}
    (h : parse_class_boxes raw = Except.error e) : ∃ m, e = PyErr.valueError m := by
  cases hpc : parseChunks (pySplit ',' raw) [] with
  | error e' =>
      have heval : parse_class_boxes raw = Except.error e' := by
        simp [parse_class_boxes, hpc]
      rw [heval] at h
      obtain rfl := (Except.error.inj h).symm
      exact parseChunks_error_shape _ _ _ hpc
  | ok entries =>
      by_cases hnil : entries = []
      · subst hnil
        have heval : parse_class_boxes raw = Except.error
            (.valueError "At least one class:value pair is required.".toList) := by
          simp [parse_class_boxes, hpc]
        rw [heval] at h
        exact ⟨_, (Except.error.inj h).symm⟩
      · have heval : parse_class_boxes raw = Except.ok entries := by
          simp [parse_class_boxes, hpc, hnil]
        rw [heval] at h
        exact Except.noConfusion h

theorem parse_class_boxes_ok_ne_nil {raw : Str} {cs : List (Str × ℚ)}
    (h : parse_class_boxes raw = Except.ok cs) : cs ≠ [] := by
  cases hpc : parseChunks (pySplit ',' raw) [] with
  | error e =>
      have heval : parse_class_boxes raw = Except.error e := by
        simp [parse_class_boxes, hpc]
      rw [heval] at h
      exact Except.noConfusion h
  | ok entries =>
      by_cases hnil : entries = []
      · subst hnil
        have heval : parse_class_boxes raw = Except.error
            (.valueError "At least one class:value pair is required.".toList) := by
          simp [parse_class_boxes, hpc]
        rw [heval] at h
        exact Except.noConfusion h
      · have heval : parse_class_boxes raw = Except.ok entries := by
          simp [parse_class_boxes, hpc, hnil]
        rw [heval] at h
        obtain rfl := Except.ok.inj h
        exact hnil

theorem z_score_error_shape {c : ℝ} {e : PyErr} (h : z_score c = Except.error e) :
    e = PyErr.valueError "confidence must be in (0, 1)".toList := by
  unfold z_score at h
  by_cases hc : ¬ (0 < c ∧ c < 1)
  · rw [if_pos hc] at h
    exact (Except.error.inj h).symm
  · rw [if_neg hc] at h
    exact Except.noConfusion h

theorem required_boxes_error_shape {z E p : ℝ} {e : PyErr}
    (h : required_boxes z E p = Except.error e) :
    e = PyErr.valueError "margin must be in (0, 1)".toList ∨
    e = PyErr.valueError "base_rate must be in (0, 1)".toList := by
  unfold required_boxes at h
  by_cases hE : ¬ (0 < E ∧ E < 1)
  · rw [if_pos hE] at h
    exact Or.inl (Except.error.inj h).symm
  · rw [if_neg hE] at h
    by_cases hp : ¬ (0 < p ∧ p < 1)
    · rw [if_pos hp] at h
      exact Or.inr (Except.error.inj h).symm
    · rw [if_neg hp] at h
      exact Except.noConfusion h

theorem perClassCounts_error_shape {b : ℝ} (l : List (Str × ℚ)) :
    ∀ e, perClassCounts b l = Except.error e →
      ∃ nm, e = PyErr.systemExit
        ("boxes_per_image for ".toList ++ nm ++ " must be positive.".toList) := by
  induction l with
  | nil => intro e h; simp [perClassCounts] at h
  | cons p rest ih =>
      intro e h
      obtain ⟨n₀, b₀⟩ := p
      by_cases hb₀ : b₀ ≤ 0
      · rw [show perClassCounts b ((n₀, b₀) :: rest) = Except.error
            (.systemExit ("boxes_per_image for ".toList ++ n₀ ++
              " must be positive.".toList)) from by
          simp only [perClassCounts]
          rw [if_pos hb₀]] at h
        exact ⟨n₀, (Except.error.inj h).symm⟩
      · cases hrest : perClassCounts b rest with
        | error e' =>
            rw [show perClassCounts b ((n₀, b₀) :: rest) = Except.error e' from by
              simp only [perClassCounts]
              rw [if_neg hb₀, hrest]] at h
            obtain rfl := Except.error.inj h
            exact ih e' hrest
        | ok tail =>
            rw [show perClassCounts b ((n₀, b₀) :: rest) =
                Except.ok ((n₀, ⌈b / ((b₀ : ℚ) : ℝ)⌉) :: tail) from by
              simp only [perClassCounts]
              rw [if_neg hb₀, hrest]] at h
            exact Except.noConfusion h

theorem perClassCounts_ok_map {b : ℝ} (l : List (Str × ℚ)) :
    ∀ res, perClassCounts b l = Except.ok res →
      res = l.map (fun p => (p.1, ⌈b / (p.2 : ℝ)⌉)) := by
  induction l with
  | nil => intro res h; simp [perClassCounts] at h; simp [h.symm]
  | cons p rest ih =>
      intro res h
      obtain ⟨n₀, b₀⟩ := p
      by_cases hb₀ : b₀ ≤ 0
      · rw [show perClassCounts b ((n₀, b₀) :: rest) = Except.error
            (.systemExit ("boxes_per_image for ".toList ++ n₀ ++
              " must be positive.".toList)) from by
          simp only [perClassCounts]
          rw [if_pos hb₀]] at h
        exact Except.noConfusion h
      · cases hrest : perClassCounts b rest with
        | error e' =>
            rw [show perClassCounts b ((n₀, b₀) :: rest) = Except.error e' from by
              simp only [perClassCounts]
              rw [if_neg hb₀, hrest]] at h
            exact Except.noConfusion h
        | ok tail =>
            rw [show perClassCounts b ((n₀, b₀) :: rest) =
                Except.ok ((n₀, ⌈b / ((b₀ : ℚ) : ℝ)⌉) :: tail) from by
              simp only [perClassCounts]
              rw [if_neg hb₀, hrest]] at h
            obtain rfl := (Except.ok.inj h).symm
            rw [ih tail hrest]
            simp

theorem perClassCounts_ok_pos {b : ℝ} (l : List (Str × ℚ)) :
    ∀ res, perClassCounts b l = Except.ok res → ∀ p ∈ l, ¬ p.2 ≤ 0 := by
  induction l with
  | nil => intro res _ p hp; exact absurd hp (List.not_mem_nil _)
  | cons q rest ih =>
      intro res h p hp
      obtain ⟨n₀, b₀⟩ := q
      by_cases hb₀ : b₀ ≤ 0
      · rw [show perClassCounts b ((n₀, b₀) :: rest) = Except.error
            (.systemExit ("boxes_per_image for ".toList ++ n₀ ++
              " must be positive.".toList)) from by
          simp only [perClassCounts]
          rw [if_pos hb₀]] at h
        exact Except.noConfusion h
      · cases hrest : perClassCounts b rest with
        | error e' =>
            rw [show perClassCounts b ((n₀, b₀) :: rest) = Except.error e' from by
              simp only [perClassCounts]
              rw [if_neg hb₀, hrest]] at h
            exact Except.noConfusion h
        | ok tail =>
            rcases List.mem_cons.1 hp with rfl | hp'
            · exact hb₀
            · exact ih tail hrest p hp'

theorem marginReport_error_shape {z : ℝ} {p : ℚ} {n : ℤ} (l : List (Str × ℚ)) :
    ∀ e, marginReport z p n l = Except.error e →
      e = PyErr.valueError "boxes must be positive".toList := by
  induction l with
  | nil => intro e h; simp [marginReport] at h
  | cons q rest ih =>
      intro e h
      obtain ⟨n₀, b₀⟩ := q
      cases hmb : margin_from_boxes z (p : ℝ) (((n : ℚ) * b₀ : ℚ) : ℝ) with
      | error e' =>
          rw [show marginReport z p n ((n₀, b₀) :: rest) = Except.error e' from by
            simp only [marginReport]
            rw [hmb]] at h
          obtain rfl := Except.error.inj h
          unfold margin_from_boxes at hmb
          by_cases hneg : (((n : ℚ) * b₀ : ℚ) : ℝ) ≤ 0
          · rw [if_pos hneg] at hmb
            exact (Except.error.inj hmb).symm
          · rw [if_neg hneg] at hmb
            exact Except.noConfusion hmb
      | ok m =>
          cases hrest : marginReport z p n rest with
          | error e' =>
              rw [show marginReport z p n ((n₀, b₀) :: rest) = Except.error e' from by
                simp only [marginReport]
                rw [hmb, hrest]] at h
              obtain rfl := Except.error.inj h
              exact ih e' hrest
          | ok tail =>
              rw [show marginReport z p n ((n₀, b₀) :: rest) =
                  Except.ok ((n₀, m) :: tail) from by
                simp only [marginReport]
                rw [hmb, hrest]] at h
              exact Except.noConfusion h

theorem marginReport_neg_error (z : ℝ) (p : ℚ) (n : ℤ) (l : List (Str × ℚ))
    (hl : l ≠ []) (hpos : ∀ q ∈ l, ¬ q.2 ≤ 0) (hn : n < 0) :
    marginReport z p n l = Except.error (.valueError "boxes must be positive".toList) := by
  cases l with
  | nil => exact absurd rfl hl
  | cons q rest =>
      obtain ⟨n₀, b₀⟩ := q
      have hb₀ : 0 < b₀ := lt_of_not_le (hpos (n₀, b₀) (List.mem_cons_self _ _))
      have hneg : ((n : ℚ) * b₀ : ℚ) < 0 :=
        mul_neg_of_neg_of_pos (by exact_mod_cast hn) hb₀
      have hneg' : (((n : ℚ) * b₀ : ℚ) : ℝ) ≤ 0 := by
        have : (((n : ℚ) * b₀ : ℚ) : ℝ) < 0 := by exact_mod_cast hneg
        exact this.le
      have hmb : margin_from_boxes z (p : ℝ) (((n : ℚ) * b₀ : ℚ) : ℝ) =
          Except.error (.valueError "boxes must be positive".toList) := by
        unfold margin_from_boxes
        rw [if_pos hneg']
      simp only [marginReport]
      rw [hmb]

end MainInversion

theorem mainModel_ok_inversion {args : Args} {out : MainOut}
    (h : mainModel args = Except.ok out) :
    ∃ cs conf z,
      parse_class_boxes args.class_boxes = Except.ok cs ∧
      (if args.confidence > 1 then
        (if args.confidence ≥ 100 then
          Except.error (PyErr.systemExit
            "confidence percentage must be less than 100.".toList)
         else Except.ok (args.confidence / 100))
       else Except.ok args.confidence) = Except.ok conf ∧
      z_score ((conf : ℚ) : ℝ) = Except.ok z ∧
      required_boxes z ((args.margin : ℚ) : ℝ) ((args.base_rate : ℚ) : ℝ) =
        Except.ok out.boxes_needed ∧
      perClassCounts out.boxes_needed cs = Except.ok out.per_class ∧
      out.recommended = maxValues (out.per_class.map Prod.snd) ∧
      (∀ n, args.current_images = some n → n ≠ 0 →
        ∃ rep, marginReport z args.base_rate n cs = Except.ok rep ∧
          out.report = some rep) := by
  unfold mainModel at h
  split at h
  · exact Except.noConfusion h
  · rename_i cs hpc
    split at h
    · exact Except.noConfusion h
    · rename_i conf hconf
      split at h
      · exact Except.noConfusion h
      · rename_i z hz
        split at h
        · exact Except.noConfusion h
        · rename_i bn hbn
          split at h
          · exact Except.noConfusion h
          · rename_i pc hpcc
            split at h
            · rename_i hci
              obtain rfl := (Except.ok.inj h).symm
              exact ⟨cs, conf, z, hpc, hconf, hz, hbn, hpcc, rfl, fun n hn _ => by
                rw [hci] at hn; exact Option.noConfusion hn⟩
            · rename_i n hci
              split at h
              · rename_i hn0
                obtain rfl := (Except.ok.inj h).symm
                refine ⟨cs, conf, z, hpc, hconf, hz, hbn, hpcc, rfl, fun n' hn' hne => ?_⟩
                rw [hci] at hn'
                obtain rfl := Option.some.inj hn'
                exact absurd hn0 hne
              · rename_i hn0
                split at h
                · exact Except.noConfusion h
                · rename_i rep hrep
                  obtain rfl := (Except.ok.inj h).symm
                  refine ⟨cs, conf, z, hpc, hconf, hz, hbn, hpcc, rfl, fun n' hn' hne => ?_⟩
                  rw [hci] at hn'
                  obtain rfl := Option.some.inj hn'
                  exact ⟨rep, hrep, rfl⟩

theorem perclass_msg_ne (nm : Str) :
    ("boxes_per_image for ".toList ++ nm ++ " must be positive.".toList) ≠
      "confidence percentage must be less than 100.".toList := by
  intro h
  rw [show "boxes_per_image for ".toList = 'b' :: "oxes_per_image for ".toList
    from rfl] at h
  rw [show "confidence percentage must be less than 100.".toList =
    'c' :: "onfidence percentage must be less than 100.".toList from rfl] at h
  simp at h

theorem mainModel_error_inversion {args : Args} {e : PyErr}
    (h : mainModel args = Except.error e) :
    (∃ m, e = PyErr.valueError m) ∨
    (e = PyErr.systemExit "confidence percentage must be less than 100.".toList ∧
      100 ≤ args.confidence) ∨
    (∃ nm, e = PyErr.systemExit
      ("boxes_per_image for ".toList ++ nm ++ " must be positive.".toList)) := by
  unfold mainModel at h
  split at h
  · rename_i e₀ hpc
    obtain rfl := Except.error.inj h
    exact Or.inl (parse_class_boxes_error_shape hpc)
  · rename_i cs hpc
    split at h
    · rename_i e₁ hconf
      obtain rfl := Except.error.inj h
      by_cases h1 : args.confidence > 1
      · rw [if_pos h1] at hconf
        by_cases h2 : args.confidence ≥ 100
        · rw [if_pos h2] at hconf
          exact Or.inr (Or.inl ⟨(Except.error.inj hconf).symm, h2⟩)
        · rw [if_neg h2] at hconf
          exact Except.noConfusion hconf
      · rw [if_neg h1] at hconf
        exact Except.noConfusion hconf
    · rename_i conf hconf
      split at h
      · rename_i e₁ hz
        obtain rfl := Except.error.inj h
        exact Or.inl ⟨_, z_score_error_shape hz⟩
      · rename_i z hz
        split at h
        · rename_i e₁ hbn
          obtain rfl := Except.error.inj h
          rcases required_boxes_error_shape hbn with h' | h'
          · exact Or.inl ⟨_, h'⟩
          · exact Or.inl ⟨_, h'⟩
        · rename_i bn hbn
          split at h
          · rename_i e₁ hpcc
            obtain rfl := Except.error.inj h
            exact Or.inr (Or.inr (perClassCounts_error_shape cs e₁ hpcc))
          · rename_i pc hpcc
            split at h
            · exact Except.noConfusion h
            · rename_i n hci
              split at h
              · exact Except.noConfusion h
              · split at h
                · rename_i e₁ hrep
                  obtain rfl := Except.error.inj h
                  exact Or.inl ⟨_, marginReport_error_shape cs e₁ hrep⟩
                · exact Except.noConfusion h

section ClaimsMain

/-- The default `--class-boxes` string of the script. -/
def rawDefault : Str := "header:1,body:1,footer:1".toList

/-- The `--class-boxes` string of the specification's worked example. -/
def rawC2 : Str := "header:1,body:2,footer:1".toList

/-- A class spec with a zero (non-positive) instances-per-image value. -/
def rawH0 : Str := "header:0".toList

theorem parse_rawDefault : parse_class_boxes rawDefault =
    Except.ok [("header".toList, 1), ("body".toList, 1), ("footer".toList, 1)] := by
  simp [rawDefault, parse_class_boxes, parseChunks, pySplit, pySplitAux, pyStrip,
    pyIsSpace, splitFirst, pyFloat, parseSign, splitExp, parseMantissa,
    parseDigits, digitsVal, digitQ, tenPow, dictInsert, String.toList]

theorem parse_rawC2 : parse_class_boxes rawC2 =
    Except.ok [("header".toList, 1), ("body".toList, 2), ("footer".toList, 1)] := by
  simp [rawC2, parse_class_boxes, parseChunks, pySplit, pySplitAux, pyStrip,
    pyIsSpace, splitFirst, pyFloat, parseSign, splitExp, parseMantissa,
    parseDigits, digitsVal, digitQ, tenPow, dictInsert, String.toList]

theorem parse_rawH0 : parse_class_boxes rawH0 =
    Except.ok [("header".toList, 0)] := by
  simp [rawH0, parse_class_boxes, parseChunks, pySplit, pySplitAux, pyStrip,
    pyIsSpace, splitFirst, pyFloat, parseSign, splitExp, parseMantissa,
    parseDigits, digitsVal, digitQ, tenPow, dictInsert, String.toList]

/-- With the default numeric arguments, `main` reaches the per-class loop
with `z = inv_cdf(0.975)` and `boxes_needed = z² · 0.25 / 0.05²`. -/
theorem mainModel_steps (raw : Str) (cs : List (Str × ℚ))
    (hp : parse_class_boxes raw = Except.ok cs) :
    mainModel ⟨raw, 19/20, 1/20, 1/2, none⟩ =
      match perClassCounts (requiredBoxesVal (inv_cdf (39/40)) (1/20) (1/2)) cs with
      | Except.error e => Except.error e
      | Except.ok per_class =>
          Except.ok ⟨requiredBoxesVal (inv_cdf (39/40)) (1/20) (1/2), per_class,
            maxValues (per_class.map Prod.snd), none⟩ := by
  norm_num [mainModel, hp, z_score, required_boxes, maxValues]

theorem perClassCounts_nonpos_error (b : ℝ) (l : List (Str × ℚ)) :
    ∀ name v, (name, v) ∈ l → v ≤ 0 →
      ∃ nm, perClassCounts b l = Except.error
        (.systemExit ("boxes_per_image for ".toList ++ nm ++
          " must be positive.".toList)) := by
  induction l with
  | nil => intro name v h _; exact absurd h (List.not_mem_nil _)
  | cons p rest ih =>
      intro name v hmem hv
      obtain ⟨n₀, b₀⟩ := p
      by_cases hb₀ : b₀ ≤ 0
      · refine ⟨n₀, ?_⟩
        simp only [perClassCounts]
        rw [if_pos hb₀]
      · rcases List.mem_cons.1 hmem with heq | hmem'
        · rw [Prod.mk.injEq] at heq
          exact absurd (heq.2 ▸ hv) hb₀
        · obtain ⟨nm, herr⟩ := ih name v hmem' hv
          refine ⟨nm, ?_⟩
          simp only [perClassCounts]
          rw [if_neg hb₀, herr]

/-- C10: parsing does not enforce the positivity invariant — a pair whose
value parses as a number `≤ 0` is accepted by `parse_class_boxes` (e.g.
`header:0` and `header:-2`), and positivity is only checked later, during
the per-class image-count step of `main`, which then exits with
`boxes_per_image for <name> must be positive.`. -/
theorem C10_positivity_checked_late :
    parse_class_boxes rawH0 = Except.ok [("header".toList, 0)] ∧
    parse_class_boxes "header:-2".toList = Except.ok [("header".toList, -2)] ∧
    (∀ (raw : Str) (cs : List (Str × ℚ)) (name : Str) (v : ℚ),
      parse_class_boxes raw = Except.ok cs → (name, v) ∈ cs → v ≤ 0 →
      ∃ nm, mainModel ⟨raw, 19/20, 1/20, 1/2, none⟩ =
        Except.error (.systemExit ("boxes_per_image for ".toList ++ nm ++
          " must be positive.".toList))) ∧
    mainModel ⟨rawH0, 19/20, 1/20, 1/2, none⟩ =
      Except.error (.systemExit
        "boxes_per_image for header must be positive.".toList) := by
  refine ⟨parse_rawH0, ?_, ?_, ?_⟩
  · simp [parse_class_boxes, parseChunks, pySplit, pySplitAux, pyStrip,
      pyIsSpace, splitFirst, pyFloat, parseSign, splitExp, parseMantissa,
      parseDigits, digitsVal, digitQ, tenPow, dictInsert, String.toList]
  · intro raw cs name v hp hmem hv
    obtain ⟨nm, herr⟩ := perClassCounts_nonpos_error
      (requiredBoxesVal (inv_cdf (39/40)) (1/20) (1/2)) cs name v hmem hv
    refine ⟨nm, ?_⟩
    rw [mainModel_steps raw cs hp, herr]
  · rw [mainModel_steps rawH0 _ parse_rawH0,
      show perClassCounts (requiredBoxesVal (inv_cdf (39/40)) (1/20) (1/2))
          [("header".toList, 0)] = Except.error (.systemExit
            ("boxes_per_image for ".toList ++ "header".toList ++
              " must be positive.".toList)) from by
        simp only [perClassCounts]
        rw [if_pos (by norm_num)]]
    rfl

theorem C10_witness :
    ∃ nm, mainModel ⟨rawH0, 19/20, 1/20, 1/2, none⟩ =
      Except.error (.systemExit ("boxes_per_image for ".toList ++ nm ++
        " must be positive.".toList)) :=
  C10_positivity_checked_late.2.2.1 rawH0 [("header".toList, 0)]
    "header".toList 0 parse_rawH0 (List.mem_cons_self _ _) (by norm_num)

/-- C5 counterexample: `current_images = 0` supplied by the caller is NOT
an error — `main` treats `0` as falsy, succeeds, and silently omits the
worst-case-margin report. -/
theorem C5_counterexample :
    Except.map MainOut.report
      (mainModel ⟨rawDefault, 19/20, 1/20, 1/2, some 0⟩) = Except.ok none := by
  norm_num [mainModel, parse_rawDefault, z_score, required_boxes,
    perClassCounts, maxValues, Except.map]

theorem requiredBoxesVal_default :
    requiredBoxesVal (inv_cdf (39/40)) (1/20) (1/2) = inv_cdf (39/40) ^ 2 * 100 := by
  unfold requiredBoxesVal
  ring

theorem ceil_default_boxes : ⌈inv_cdf (39/40) ^ 2 * 100⌉ = (385:ℤ) := by
  obtain ⟨hlo, hhi⟩ := inv_cdf_975_bounds
  rw [Int.ceil_eq_iff]
  constructor <;> nlinarith

theorem ceil_default_boxes_half : ⌈inv_cdf (39/40) ^ 2 * 100 / 2⌉ = (193:ℤ) := by
  obtain ⟨hlo, hhi⟩ := inv_cdf_975_bounds
  rw [Int.ceil_eq_iff]
  constructor <;> nlinarith

theorem mainModel_default_eval :
    mainModel ⟨rawDefault, 19/20, 1/20, 1/2, none⟩ =
      Except.ok ⟨inv_cdf (39/40) ^ 2 * 100,
        [("header".toList, (385:ℤ)), ("body".toList, 385), ("footer".toList, 385)],
        385, none⟩ := by
  norm_num [mainModel, parse_rawDefault, z_score, required_boxes, perClassCounts,
    maxValues, requiredBoxesVal_default, ceil_default_boxes, List.foldl, max_def]

/-- C5 (amended): a supplied `current_images = 0` is treated exactly like
an absent one (the report is silently omitted), while a supplied negative
`current_images` makes the run fail — never succeed — and, whenever the
run would otherwise have succeeded, the failure is exactly
`margin_from_boxes`'s `ValueError` `boxes must be positive`, not a
dedicated range check in `main`. -/
theorem C5_current_images :
    (∀ args : Args, args.current_images = some 0 →
      mainModel args = mainModel
        ⟨args.class_boxes, args.confidence, args.margin, args.base_rate, none⟩) ∧
    (∀ (args : Args) (n : ℤ) (out : MainOut),
      args.current_images = some n → n < 0 → mainModel args ≠ Except.ok out) ∧
    (∀ (args : Args) (n : ℤ) (out : MainOut),
      args.current_images = some n → n < 0 →
      mainModel ⟨args.class_boxes, args.confidence, args.margin,
        args.base_rate, none⟩ = Except.ok out →
      mainModel args = Except.error
        (.valueError "boxes must be positive".toList)) := by
  refine ⟨?_, ?_, ?_⟩
  · intro args h
    obtain ⟨cb, conf, marg, br, ci⟩ := args
    simp only at h
    subst h
    rfl
  · intro args n out hci hneg hok
    obtain ⟨cs, conf, z, hpc, -, hz, hbn, hpcc, hrec, hrep⟩ := mainModel_ok_inversion hok
    obtain ⟨rep, hmr, -⟩ := hrep n hci (by omega)
    have hposall := perClassCounts_ok_pos cs out.per_class hpcc
    rw [marginReport_neg_error z args.base_rate n cs
      (parse_class_boxes_ok_ne_nil hpc) hposall hneg] at hmr
    exact Except.noConfusion hmr
  · intro args n out hci hneg hnone
    obtain ⟨cb, confa, marg, br, ci⟩ := args
    simp only at hci hnone
    subst hci
    obtain ⟨cs, conf, z, hpc, hconf, hz, hbn, hpcc, -, -⟩ :=
      mainModel_ok_inversion hnone
    simp only at hpc hconf hz hbn hpcc
    have hposall := perClassCounts_ok_pos cs out.per_class hpcc
    have hmr := marginReport_neg_error z br n cs
      (parse_class_boxes_ok_ne_nil hpc) hposall hneg
    have hn0 : ¬ n = 0 := by omega
    simp only [mainModel, hpc, hconf, hz, hbn, hpcc, hmr, if_neg hn0]

theorem C5_witness :
    mainModel ⟨rawDefault, 19/20, 1/20, 1/2, some (-1)⟩ =
      Except.error (.valueError "boxes must be positive".toList) :=
  C5_current_images.2.2 ⟨rawDefault, 19/20, 1/20, 1/2, some (-1)⟩ (-1)
    ⟨inv_cdf (39/40) ^ 2 * 100,
      [("header".toList, (385:ℤ)), ("body".toList, 385), ("footer".toList, 385)],
      385, none⟩
    rfl (by norm_num) mainModel_default_eval

end ClaimsMain

section ClaimsConfidence

/-- C3 counterexample: `confidence = 1` is NOT normalized (the code tests
`confidence > 1`, not `>= 1`), so it reaches `z_score` unchanged and the
run fails with `z_score`'s validation error rather than succeeding with a
normalized value of `0.01`. -/
theorem C3_counterexample :
    mainModel ⟨rawDefault, 1, 1/20, 1/2, none⟩ =
      Except.error (.valueError "confidence must be in (0, 1)".toList) := by
  norm_num [mainModel, parse_rawDefault, z_score]

/-- C3 (amended): only confidence values strictly greater than `1` are
interpreted as percentages and divided by `100`; the percentage validation
error appears exactly when the original confidence is `≥ 100` (given the
class spec parses); and `confidence = 1` is passed through unchanged and
rejected by `z_score`'s `(0,1)` range check. -/
theorem C3_confidence_normalization :
    (∀ args : Args, 1 < args.confidence → args.confidence < 100 →
      mainModel args = mainModel ⟨args.class_boxes, args.confidence / 100,
        args.margin, args.base_rate, args.current_images⟩) ∧
    (∀ (args : Args) (cs : List (Str × ℚ)),
      parse_class_boxes args.class_boxes = Except.ok cs →
      100 ≤ args.confidence →
      mainModel args = Except.error
        (.systemExit "confidence percentage must be less than 100.".toList)) ∧
    (∀ args : Args, args.confidence < 100 →
      mainModel args ≠ Except.error
        (.systemExit "confidence percentage must be less than 100.".toList)) ∧
    (∀ (args : Args) (cs : List (Str × ℚ)),
      parse_class_boxes args.class_boxes = Except.ok cs →
      args.confidence = 1 →
      mainModel args = Except.error
        (.valueError "confidence must be in (0, 1)".toList)) := by
  refine ⟨?_, ?_, ?_, ?_⟩
  · intro args h1 h2
    obtain ⟨cb, conf, marg, br, ci⟩ := args
    simp only at h1 h2
    simp only [mainModel]
    rw [if_pos h1, if_neg (not_le.2 h2),
      if_neg (not_lt.2 ((div_le_one (by norm_num : (0:ℚ) < 100)).2 h2.le))]
  · intro args cs hp h100
    have h1 : args.confidence > 1 := lt_of_lt_of_le (by norm_num) h100
    simp only [mainModel, hp]
    rw [if_pos h1, if_pos h100]
  · intro args h2 hcontra
    rcases mainModel_error_inversion hcontra with ⟨m, hm⟩ | ⟨-, h100⟩ | ⟨nm, hnm⟩
    · exact PyErr.noConfusion hm
    · exact absurd h100 (not_le.2 h2)
    · exact perclass_msg_ne nm (PyErr.systemExit.inj hnm).symm
  · intro args cs hp h1
    norm_num [mainModel, hp, h1, z_score]

theorem C3_witness :
    mainModel ⟨rawDefault, 150, 1/20, 1/2, none⟩ =
      Except.error (.systemExit "confidence percentage must be less than 100.".toList) :=
  C3_confidence_normalization.2.1 ⟨rawDefault, 150, 1/20, 1/2, none⟩ _
    parse_rawDefault (by norm_num)

end ClaimsConfidence

section ClaimsCounts

theorem mainModel_c2_per_class :
    Except.map MainOut.per_class (mainModel ⟨rawC2, 19/20, 1/20, 1/2, none⟩) =
      Except.ok [("header".toList, (385:ℤ)), ("body".toList, 193),
        ("footer".toList, 385)] := by
  norm_num [mainModel, parse_rawC2, z_score, required_boxes, perClassCounts,
    maxValues, Except.map, requiredBoxesVal_default, ceil_default_boxes,
    ceil_default_boxes_half]

theorem mainModel_c2_recommended :
    Except.map MainOut.recommended (mainModel ⟨rawC2, 19/20, 1/20, 1/2, none⟩) =
      Except.ok (385:ℤ) := by
  norm_num [mainModel, parse_rawC2, z_score, required_boxes, perClassCounts,
    maxValues, Except.map, requiredBoxesVal_default, ceil_default_boxes,
    ceil_default_boxes_half, List.foldl, max_def]

/-- C2 counterexample: for class spec `header:1,body:2,footer:1`, margin
`0.05`, confidence `0.95`, base rate `0.5`, the code recommends
`body = 193` images (`required_boxes ≈ 384.146`, and
`ceil(384.146 / 2) = 193`), not `192` as the claim states. -/
theorem C2_counterexample :
    Except.map MainOut.per_class (mainModel ⟨rawC2, 19/20, 1/20, 1/2, none⟩) ≠
      Except.ok [("header".toList, (385:ℤ)), ("body".toList, 192),
        ("footer".toList, 385)] := by
  rw [mainModel_c2_per_class]
  intro h
  obtain h' := Except.ok.inj h
  exact absurd h' (by decide)

/-- C2 (amended): for every run of `main` that succeeds, each class's
recommended image count is `ceil(required_boxes / instances_per_image)`
and the overall recommendation is the maximum of the per-class counts; on
the worked example `header:1,body:2,footer:1` with margin `0.05`,
confidence `0.95` and base rate `0.5`, the counts are `header = 385`,
`body = 193`, `footer = 385` and the overall recommendation is `385`. -/
theorem C2_per_class_and_max :
    (∀ (args : Args) (out : MainOut) (cs : List (Str × ℚ)),
      mainModel args = Except.ok out →
      parse_class_boxes args.class_boxes = Except.ok cs →
      out.per_class = cs.map (fun p => (p.1, ⌈out.boxes_needed / (p.2 : ℝ)⌉)) ∧
      out.recommended = maxValues (out.per_class.map Prod.snd)) ∧
    Except.map MainOut.per_class (mainModel ⟨rawC2, 19/20, 1/20, 1/2, none⟩) =
      Except.ok [("header".toList, (385:ℤ)), ("body".toList, 193),
        ("footer".toList, 385)] ∧
    Except.map MainOut.recommended (mainModel ⟨rawC2, 19/20, 1/20, 1/2, none⟩) =
      Except.ok (385:ℤ) := by
  refine ⟨?_, mainModel_c2_per_class, mainModel_c2_recommended⟩
  intro args out cs hok hp
  obtain ⟨cs₀, conf, z, hpc, -, hz, hbn, hpcc, hrec, -⟩ := mainModel_ok_inversion hok
  rw [hp] at hpc
  obtain rfl := Except.ok.inj hpc
  exact ⟨perClassCounts_ok_map _ _ hpcc, hrec⟩

end ClaimsCounts

section ClaimsZScore

/-- C6: `z_score(confidence)` is the inverse standard normal CDF at
`0.5 + confidence/2`; it fails with a validation error exactly when the
confidence is `≤ 0` or `≥ 1`; and `z_score(0.95) ≈ 1.95996`,
`z_score(0.99) ≈ 2.57583`, each within `±0.001`. -/
theorem C6_z_score_correct :
    (∀ c : ℝ, 0 < c → c < 1 → z_score c = Except.ok (inv_cdf (0.5 + c / 2))) ∧
    (∀ c : ℝ, (∃ e, z_score c = Except.error e) ↔ (c ≤ 0 ∨ 1 ≤ c)) ∧
    (∃ v, z_score 0.95 = Except.ok v ∧ |v - 1.95996| ≤ 0.001) ∧
    (∃ v, z_score 0.99 = Except.ok v ∧ |v - 2.57583| ≤ 0.001) := by
  refine ⟨?_, ?_, ?_, ?_⟩
  · intro c h1 h2
    unfold z_score
    rw [if_neg (not_not_intro ⟨h1, h2⟩)]
  · intro c
    unfold z_score
    by_cases hc : ¬ (0 < c ∧ c < 1)
    · rw [if_pos hc]
      rw [not_and_or, not_lt, not_lt] at hc
      exact iff_of_true ⟨_, rfl⟩ hc
    · rw [if_neg hc]
      rw [not_not] at hc
      apply iff_of_false
      · rintro ⟨e, he⟩
        exact Except.noConfusion he
      · rintro (h | h) <;> [linarith [hc.1]; linarith [hc.2]]
  · refine ⟨inv_cdf (39/40), ?_, ?_⟩
    · unfold z_score
      rw [if_neg (not_not_intro ⟨by norm_num, by norm_num⟩)]
      norm_num
    · obtain ⟨hlo, hhi⟩ := inv_cdf_975_bounds
      rw [abs_le]
      constructor <;> [linarith; linarith]
  · refine ⟨inv_cdf (199/200), ?_, ?_⟩
    · unfold z_score
      rw [if_neg (not_not_intro ⟨by norm_num, by norm_num⟩)]
      norm_num
    · obtain ⟨hlo, hhi⟩ := inv_cdf_995_bounds
      rw [abs_le]
      constructor <;> [linarith; linarith]

theorem C6_witness : z_score (1/2) = Except.ok (inv_cdf (0.5 + (1/2) / 2)) :=
  C6_z_score_correct.1 (1/2) (by norm_num) (by norm_num)

end ClaimsZScore

section ClaimsCountsWitness

theorem mainModel_c2_eval :
    mainModel ⟨rawC2, 19/20, 1/20, 1/2, none⟩ =
      Except.ok ⟨inv_cdf (39/40) ^ 2 * 100,
        [("header".toList, (385:ℤ)), ("body".toList, 193), ("footer".toList, 385)],
        385, none⟩ := by
  norm_num [mainModel, parse_rawC2, z_score, required_boxes, perClassCounts,
    maxValues, requiredBoxesVal_default, ceil_default_boxes,
    ceil_default_boxes_half, List.foldl, max_def]

theorem C2_witness :
    ([("header".toList, (385:ℤ)), ("body".toList, 193), ("footer".toList, 385)] =
      [("header".toList, (1:ℚ)), ("body".toList, 2), ("footer".toList, 1)].map
        (fun p => (p.1, ⌈(inv_cdf (39/40) ^ 2 * 100) / (p.2 : ℝ)⌉)) ∧
     (385:ℤ) = maxValues ([("header".toList, (385:ℤ)), ("body".toList, 193),
        ("footer".toList, 385)].map Prod.snd)) :=
  C2_per_class_and_max.1 ⟨rawC2, 19/20, 1/20, 1/2, none⟩
    ⟨inv_cdf (39/40) ^ 2 * 100,
      [("header".toList, (385:ℤ)), ("body".toList, 193), ("footer".toList, 385)],
      385, none⟩
    [("header".toList, (1:ℚ)), ("body".toList, 2), ("footer".toList, 1)]
    mainModel_c2_eval parse_rawC2

end ClaimsCountsWitness
